import Mathlib

/-!
Shallow embedding of the Tab orchestrator of a tabbed terminal multiplexer
(source: src/cascadia/TerminalApp/Tab.cpp) together with the Pane tree it
delegates to.  The Tab-level operations are translated directly from
Tab.cpp; the Pane tree operations (splitting, closing, layout, separator
resizing, directional navigation) live in the Pane class, whose sources are
not part of this snapshot, so they are modelled from the specification.
Opaque handles (content surfaces / TermControls, profile GUIDs) are
modelled as natural numbers; geometry uses rationals.
-/

set_option autoImplicit false

/-- Axis of a split node: a vertical split places its children side by side
(dividing width); a horizontal split stacks them (dividing height). -/
inductive SplitAxis where
  | horizontal
  | vertical
  deriving DecidableEq, Repr

/-- A compass direction, as in winrt TerminalApp Direction. -/
inductive Direction where
  | left
  | right
  | up
  | down
  deriving DecidableEq, Repr

/-- Modelled from the spec: the Pane node of the tree owned by a Tab.  A
Leaf holds an opaque content-surface handle, the profile identifier that
created it, and the "is last focused" flag; a Split holds an axis, the
ratio of space given to its first child, and exactly two children. -/
inductive Pane where
  | leaf (profile : Nat) (control : Nat) (lastFocused : Bool)
  | split (axis : SplitAxis) (ratio : ℚ) (first second : Pane)
  deriving DecidableEq, Repr

/-- A two-dimensional extent (winrt Windows.Foundation.Size). -/
structure Size where
  w : ℚ
  h : ℚ
  deriving DecidableEq, Repr

/-- A rectangle, derived per node by the layout pass. -/
structure Rect where
  x : ℚ
  y : ℚ
  w : ℚ
  h : ℚ
  deriving DecidableEq, Repr

/-- Configuration supplied by the surrounding application: minimum usable
size per axis, separator thickness, the clamping bounds for split ratios
and the fixed separator-resize increment. -/
structure Config where
  minWidth : ℚ
  minHeight : ℚ
  sep : ℚ
  ratioMin : ℚ
  ratioMax : ℚ
  inc : ℚ
  deriving DecidableEq, Repr

/-- The state owned by one Tab: the root of the pane tree (none once the
last leaf has closed), the size the tree has to fill, the tab-level
focus flag, the last icon path (Tab.cpp line 149), and the number of
closed notifications delivered so far to the Tab's observers. -/
structure TabState where
  rootPane : Option Pane
  rootSize : Size
  focused : Bool
  lastIconPath : String
  closedCount : Nat
  deriving DecidableEq, Repr

/-- Modelled from the spec: ComputeLayout at one Split node.  The separator
thickness is removed from the extent before division; the first child gets
ratio * extent of what remains, the second child the rest. -/
def childRects (cfg : Config) (ax : SplitAxis) (ratio : ℚ) (rect : Rect) : Rect × Rect :=
  match ax with
  | .vertical =>
      let extent := rect.w - cfg.sep
      let firstW := ratio * extent
      (⟨rect.x, rect.y, firstW, rect.h⟩,
       ⟨rect.x + firstW + cfg.sep, rect.y, extent - firstW, rect.h⟩)
  | .horizontal =>
      let extent := rect.h - cfg.sep
      let firstH := ratio * extent
      (⟨rect.x, rect.y, rect.w, firstH⟩,
       ⟨rect.x, rect.y + firstH + cfg.sep, rect.w, extent - firstH⟩)

/-- Whether some Leaf in this subtree carries the last-focused mark. -/
def Pane.hasFocus : Pane → Bool
  | .leaf _ _ b => b
  | .split _ _ f s => f.hasFocus || s.hasFocus

/-- Number of leaves marked last-focused in this subtree (a well-formed
tree has at most one). -/
def Pane.focusCount : Pane → Nat
  | .leaf _ _ true => 1
  | .leaf _ _ false => 0
  | .split _ _ f s => f.focusCount + s.focusCount

/-- Modelled from the spec: the content handle of the Leaf marked
last-focused, in first-then-second traversal order, or none when no mark
exists (Pane::GetFocusedTerminalControl, per the contract documented at
Tab.cpp lines 37-47). -/
def Pane.getFocusedControl : Pane → Option Nat
  | .leaf _ c true => some c
  | .leaf _ _ false => none
  | .split _ _ f s =>
      match f.getFocusedControl with
      | some c => some c
      | none => s.getFocusedControl

/-- The content handle of the first Leaf in traversal order. -/
def Pane.firstControl : Pane → Nat
  | .leaf _ c _ => c
  | .split _ _ f _ => f.firstControl

/-- Mark the first Leaf in traversal order as last-focused. -/
def Pane.focusFirstLeaf : Pane → Pane
  | .leaf pr c _ => .leaf pr c true
  | .split a r f s => .split a r f.focusFirstLeaf s

/-- Modelled from the spec: the sibling-focus policy after a collapse; the
subtree keeps its own previously marked focus, defaulting to its first
Leaf in traversal order. -/
def Pane.ensureFocus (p : Pane) : Pane :=
  if p.hasFocus then p else p.focusFirstLeaf

/-- Modelled from the spec: the rectangle of the last-focused Leaf, derived
top-down from the given root rectangle through the ratio chain. -/
def Pane.focusedRect (cfg : Config) : Pane → Rect → Option Rect
  | .leaf _ _ true, rect => some rect
  | .leaf _ _ false, _ => none
  | .split ax r f s, rect =>
      let cr := childRects cfg ax r rect
      match f.focusedRect cfg cr.1 with
      | some q => some q
      | none => s.focusedRect cfg cr.2

/-- Modelled from the spec: the full leaf-rectangle mapping computed by the
layout pass (control handle, last-focused flag, derived rectangle). -/
def Pane.leafRects (cfg : Config) : Pane → Rect → List (Nat × Bool × Rect)
  | .leaf _ c b, rect => [(c, b, rect)]
  | .split ax r f s, rect =>
      let cr := childRects cfg ax r rect
      f.leafRects cfg cr.1 ++ s.leafRects cfg cr.2

/-- Modelled from the spec: Split converts the (unique) last-focused Leaf
into a Split with ratio one half, first child = the old content (mark
cleared), second child = the new content, which becomes the focus target.
Returns none when no Leaf in the subtree carries the mark. -/
def Pane.splitFocused (ax : SplitAxis) (profile control : Nat) : Pane → Option Pane
  | .leaf pr c true =>
      some (.split ax ((1 : ℚ)/2) (.leaf pr c false) (.leaf profile control true))
  | .leaf _ _ false => none
  | .split a r f s =>
      match f.splitFocused ax profile control with
      | some fq => some (.split a r fq s)
      | none =>
          match s.splitFocused ax profile control with
          | some sq => some (.split a r f sq)
          | none => none

/-- Outcome of closing the focused Leaf of a subtree. -/
inductive CloseOutcome where
  | notFound
  | becameEmpty
  | replaced (p : Pane)
  deriving DecidableEq, Repr

/-- Modelled from the spec: Close removes the last-focused Leaf.  Closing
the only Leaf of a subtree empties it; otherwise the sibling replaces the
parent Split, receiving the last-focused mark by the sibling-focus policy
when the closed Leaf held it. -/
def Pane.closeFocused : Pane → CloseOutcome
  | .leaf _ _ true => .becameEmpty
  | .leaf _ _ false => .notFound
  | .split a r f s =>
      match f.closeFocused with
      | .becameEmpty => .replaced s.ensureFocus
      | .replaced fq => .replaced (.split a r fq s)
      | .notFound =>
          match s.closeFocused with
          | .becameEmpty => .replaced f.ensureFocus
          | .replaced sq => .replaced (.split a r f sq)
          | .notFound => .notFound

/-- The axis a resize/navigate direction refers to. -/
def dirAxis : Direction → SplitAxis
  | .left | .right => .vertical
  | .up | .down => .horizontal

/-- Modelled from the spec: for the separator of an ancestor Split to lie
adjacent to the focused leaf on the requested side, the focused leaf must
be in the first child for right/down and in the second for left/up. -/
def wantsFirst : Direction → Bool
  | .right | .down => true
  | .left | .up => false

/-- The fixed signed ratio increment for a separator move. -/
def ratioDelta (cfg : Config) : Direction → ℚ
  | .right | .down => cfg.inc
  | .left | .up => -cfg.inc

/-- Clamp a ratio into the configured bounds. -/
def clampRatio (cfg : Config) (r : ℚ) : ℚ :=
  max cfg.ratioMin (min cfg.ratioMax r)

/-- Modelled from the spec: ResizeSeparator locates the nearest ancestor
Split whose axis matches the direction and whose boundary lies on the
requested side of the focused leaf, and adjusts its ratio by the fixed
increment, clamped; none when no such ancestor exists. -/
def Pane.resizeFocused (cfg : Config) (d : Direction) : Pane → Option Pane
  | .leaf _ _ _ => none
  | .split a r f s =>
      if f.hasFocus then
        match f.resizeFocused cfg d with
        | some fq => some (.split a r fq s)
        | none =>
            if dirAxis d = a ∧ wantsFirst d = true then
              some (.split a (clampRatio cfg (r + ratioDelta cfg d)) f s)
            else none
      else if s.hasFocus then
        match s.resizeFocused cfg d with
        | some sq => some (.split a r f sq)
        | none =>
            if dirAxis d = a ∧ wantsFirst d = false then
              some (.split a (clampRatio cfg (r + ratioDelta cfg d)) f s)
            else none
      else none

/-- Whether an ancestor Split on the focus path matches the direction of a
separator-resize request (axis matches and the boundary lies on the
requested side of the focused leaf). -/
def Pane.hasMatchingAncestor (d : Direction) : Pane → Bool
  | .leaf _ _ _ => false
  | .split a _ f s =>
      if f.hasFocus then
        f.hasMatchingAncestor d || decide (dirAxis d = a ∧ wantsFirst d = true)
      else if s.hasFocus then
        s.hasMatchingAncestor d || decide (dirAxis d = a ∧ wantsFirst d = false)
      else false

/-- Move the last-focused mark to the Leaf holding the given control. -/
def Pane.focusControl (c : Nat) : Pane → Pane
  | .leaf pr c0 _ => .leaf pr c0 (decide (c0 = c))
  | .split a r f s => .split a r (f.focusControl c) (s.focusControl c)

/-- Whether a candidate rectangle's projection on the axis perpendicular to
the direction overlaps the focused rectangle's by a nonzero amount. -/
def perpOverlap (d : Direction) (foc cand : Rect) : Bool :=
  match d with
  | .left | .right => decide (foc.y < cand.y + cand.h) && decide (cand.y < foc.y + foc.h)
  | .up | .down => decide (foc.x < cand.x + cand.w) && decide (cand.x < foc.x + foc.w)

/-- Whether a candidate rectangle lies strictly on the requested side of
the focused rectangle's corresponding edge. -/
def onSide (d : Direction) (foc cand : Rect) : Bool :=
  match d with
  | .right => decide (foc.x + foc.w ≤ cand.x)
  | .left => decide (cand.x + cand.w ≤ foc.x)
  | .down => decide (foc.y + foc.h ≤ cand.y)
  | .up => decide (cand.y + cand.h ≤ foc.y)

/-- Modelled from the spec: navigation eligibility of a candidate leaf
rectangle relative to the focused rectangle. -/
def eligibleB (d : Direction) (foc cand : Rect) : Bool :=
  onSide d foc cand && perpOverlap d foc cand

/-- Distance from the focused rectangle's edge to the candidate's relevant
edge, in the requested direction. -/
def edgeGap (d : Direction) (foc cand : Rect) : ℚ :=
  match d with
  | .right => cand.x - (foc.x + foc.w)
  | .left => foc.x - (cand.x + cand.w)
  | .down => cand.y - (foc.y + foc.h)
  | .up => foc.y - (cand.y + cand.h)

/-- Squared Euclidean distance between rectangle centers (the tie-break). -/
def centerDistSq (a b : Rect) : ℚ :=
  let dx := (a.x + a.w / 2) - (b.x + b.w / 2)
  let dy := (a.y + a.h / 2) - (b.y + b.h / 2)
  dx * dx + dy * dy

/-- Whether candidate entry u beats candidate entry v: strictly smaller
edge distance, or equal edge distance and strictly smaller center
distance. -/
def betterCand (d : Direction) (foc : Rect) (u v : Nat × Bool × Rect) : Bool :=
  decide (edgeGap d foc u.2.2 < edgeGap d foc v.2.2) ||
    (decide (edgeGap d foc u.2.2 = edgeGap d foc v.2.2) &&
      decide (centerDistSq foc u.2.2 < centerDistSq foc v.2.2))

/-- Select the best eligible candidate (none on the empty list). -/
def pickBest (d : Direction) (foc : Rect) : List (Nat × Bool × Rect) → Option (Nat × Bool × Rect)
  | [] => none
  | e :: es =>
      match pickBest d foc es with
      | none => some e
      | some b => if betterCand d foc b e then some b else some e

namespace Tab

/-- Tab::Tab (Tab.cpp lines 15-24): a new Tab wraps a single Leaf created
with the mark set (the Pane constructor is called with lastFocused =
true), subscribes to the tree's closed notification, with no notification
delivered yet. -/
def init (profile control : Nat) (sz : Size) : TabState :=
  { rootPane := some (.leaf profile control true)
    rootSize := sz
    focused := false
    lastIconPath := ""
    closedCount := 0 }

/-- The rectangle the root pane has to fill. -/
def rootRect (st : TabState) : Rect :=
  ⟨0, 0, st.rootSize.w, st.rootSize.h⟩

/-- Tab::GetFocusedTerminalControl (Tab.cpp lines 48-51): the control of
the last-focused leaf, or none when no leaf carries the mark. -/
def GetFocusedTerminalControl (st : TabState) : Option Nat :=
  match st.rootPane with
  | none => none
  | some p => p.getFocusedControl

/-- Tab::IsFocused (Tab.cpp lines 66-69). -/
def IsFocused (st : TabState) : Bool :=
  st.focused

/-- Tab::SetFocused + Tab::_Focus (Tab.cpp lines 79-87 and 121-130): store
the new focus flag; on gain, fetch the last-focused control and, only if
one exists, transfer focus to it.  The second component is the control
that received the Focus call, none when no call was made. -/
def SetFocused (st : TabState) (focused : Bool) : TabState × Option Nat :=
  if focused then
    ({ st with focused := true }, GetFocusedTerminalControl st)
  else
    ({ st with focused := false }, none)

/-- Tab::GetFocusedTitle (Tab.cpp lines 168-172): the title of the
last-focused control, or the empty string when there is none. -/
def GetFocusedTitle (titleOf : Nat → String) (st : TabState) : String :=
  match GetFocusedTerminalControl st with
  | some c => titleOf c
  | none => ""

/-- Tab::UpdateIcon (Tab.cpp lines 146-159): early-return when the path
equals the stored one; otherwise store it and dispatch the icon reload.
The Boolean reports whether a reload was dispatched. -/
def UpdateIcon (st : TabState) (iconPath : String) : TabState × Bool :=
  if iconPath = st.lastIconPath then
    (st, false)
  else
    ({ st with lastIconPath := iconPath }, true)

/-- Outcome of Tab::Scroll: either a scroll was dispatched to the focused
control, or the null control was dereferenced. -/
inductive ScrollOutcome where
  | dispatched (control : Nat) (delta : Int)
  | nullDeref
  deriving DecidableEq, Repr

/-- Tab::Scroll (Tab.cpp lines 197-204): fetches the focused control and
immediately dereferences it (control.Dispatcher()) with no null guard;
with no last-focused control the null dereference is reached. -/
def Scroll (st : TabState) (delta : Int) : ScrollOutcome :=
  match GetFocusedTerminalControl st with
  | some c => .dispatched c delta
  | none => .nullDeref

/-- Error raised by a split that does not fit. -/
inductive SplitError where
  | invalidOperation
  deriving DecidableEq, Repr

/-- Modelled from the spec: CanSplit is true iff the focused Leaf's derived
rectangle can host two children meeting the minimum size for the axis,
separator thickness accounted for (Pane::CanSplitVertical /
Pane::CanSplitHorizontal, reached from Tab.cpp lines 210-213, 232-235). -/
def canSplitAxis (cfg : Config) (ax : SplitAxis) (st : TabState) : Bool :=
  match st.rootPane with
  | none => false
  | some p =>
      match p.focusedRect cfg (rootRect st) with
      | none => false
      | some r =>
          match ax with
          | .vertical => decide (2 * cfg.minWidth + cfg.sep ≤ r.w)
          | .horizontal => decide (2 * cfg.minHeight + cfg.sep ≤ r.h)

/-- Modelled from the spec: Pane::SplitVertical / Pane::SplitHorizontal
(reached from Tab.cpp lines 223-226 and 245-248); fails with
InvalidOperation when CanSplit is false, otherwise converts the focused
Leaf into a Split. -/
def AddSplit (cfg : Config) (ax : SplitAxis) (profile control : Nat) (st : TabState) :
    Except SplitError TabState :=
  if canSplitAxis cfg ax st then
    match st.rootPane with
    | some p =>
        match p.splitFocused ax profile control with
        | some q => .ok { st with rootPane := some q }
        | none => .error .invalidOperation
    | none => .error .invalidOperation
  else .error .invalidOperation

/-- Tab::AddVerticalSplit (Tab.cpp lines 223-226). -/
def AddVerticalSplit (cfg : Config) (profile control : Nat) (st : TabState) :
    Except SplitError TabState :=
  AddSplit cfg .vertical profile control st

/-- Tab::AddHorizontalSplit (Tab.cpp lines 245-248). -/
def AddHorizontalSplit (cfg : Config) (profile control : Nat) (st : TabState) :
    Except SplitError TabState :=
  AddSplit cfg .horizontal profile control st

/-- The state a caller observes after requesting a split: the new state on
success, the unchanged state on failure. -/
def trySplit (cfg : Config) (ax : SplitAxis) (profile control : Nat) (st : TabState) : TabState :=
  match AddSplit cfg ax profile control st with
  | .ok s => s
  | .error _ => st

/-- Tab::ClosePane (Tab.cpp lines 294-298) with the Pane close semantics
modelled from the spec: close the focused leaf; when that empties the
tree, the closed notification fires once the structural change is done;
with no focused leaf nothing is closed. -/
def ClosePane (st : TabState) : TabState :=
  match st.rootPane with
  | none => st
  | some p =>
      match p.closeFocused with
      | .notFound => st
      | .becameEmpty => { st with rootPane := none, closedCount := st.closedCount + 1 }
      | .replaced q => { st with rootPane := some q }

/-- Tab::ResizeContent (Tab.cpp lines 257-260): store the new size the
panes have to fill; rectangles are derived from it on the next layout
pass. -/
def ResizeContent (st : TabState) (newSize : Size) : TabState :=
  { st with rootSize := newSize }

/-- Tab::ResizePane (Tab.cpp lines 269-272) with Pane::ResizePane modelled
from the spec: adjust the matching ancestor's ratio; leave the tree
unchanged when no ancestor matches. -/
def ResizePane (cfg : Config) (d : Direction) (st : TabState) : TabState :=
  match st.rootPane with
  | none => st
  | some p =>
      match p.resizeFocused cfg d with
      | some q => { st with rootPane := some q }
      | none => st

/-- Whether no ancestor Split matches a separator-resize request. -/
def noMatchingAncestor (d : Direction) (st : TabState) : Bool :=
  match st.rootPane with
  | none => true
  | some p => !p.hasMatchingAncestor d

/-- The eligible candidates of a navigation request, from the derived
leaf-rectangle mapping: every non-focused leaf strictly on the requested
side whose perpendicular projection overlaps the focused rectangle. -/
def eligibleCands (cfg : Config) (d : Direction) (st : TabState) : List (Nat × Bool × Rect) :=
  match st.rootPane with
  | none => []
  | some p =>
      match p.focusedRect cfg (rootRect st) with
      | none => []
      | some fr => (p.leafRects cfg (rootRect st)).filter fun e => !e.2.1 && eligibleB d fr e.2.2

/-- Tab::NavigateFocus (Tab.cpp lines 281-284) with Pane::NavigateFocus
modelled from the spec: pick the best eligible candidate, move the mark to
it and transfer focus (second component: the newly focused control); with
no eligible candidate there is no result and no mutation. -/
def NavigateFocus (cfg : Config) (d : Direction) (st : TabState) : TabState × Option Nat :=
  match st.rootPane with
  | none => (st, none)
  | some p =>
      match p.focusedRect cfg (rootRect st) with
      | none => (st, none)
      | some fr =>
          match pickBest d fr
              ((p.leafRects cfg (rootRect st)).filter fun e => !e.2.1 && eligibleB d fr e.2.2) with
          | none => (st, none)
          | some best => ({ st with rootPane := some (p.focusControl best.1) }, some best.1)

end Tab

/-- A public mutator of the Tab, for reasoning over a whole lifetime. -/
inductive Op where
  | splitV (profile control : Nat)
  | splitH (profile control : Nat)
  | closeOp
  | resizeSep (d : Direction)
  | navigate (d : Direction)
  | resizeWin (sz : Size)
  | setFocus (b : Bool)
  | icon (path : String)
  deriving DecidableEq, Repr

/-- One step of the Tab's lifetime: the state a caller observes after the
operation (failed splits leave the state unchanged). -/
def applyOp (cfg : Config) (st : TabState) : Op → TabState
  | .splitV pr c => Tab.trySplit cfg .vertical pr c st
  | .splitH pr c => Tab.trySplit cfg .horizontal pr c st
  | .closeOp => Tab.ClosePane st
  | .resizeSep d => Tab.ResizePane cfg d st
  | .navigate d => (Tab.NavigateFocus cfg d st).1
  | .resizeWin sz => Tab.ResizeContent st sz
  | .setFocus b => (Tab.SetFocused st b).1
  | .icon path => (Tab.UpdateIcon st path).1

/-- A whole lifetime of public mutator calls. -/
def applyOps (cfg : Config) (st : TabState) (ops : List Op) : TabState :=
  ops.foldl (applyOp cfg) st

/-- A Split/Close-only operation, as in the structural invariant. -/
inductive TreeOp where
  | splitV (profile control : Nat)
  | splitH (profile control : Nat)
  | closeOp
  deriving DecidableEq, Repr

/-- Apply one Split/Close operation. -/
def applyTreeOp (cfg : Config) (st : TabState) : TreeOp → TabState
  | .splitV pr c => Tab.trySplit cfg .vertical pr c st
  | .splitH pr c => Tab.trySplit cfg .horizontal pr c st
  | .closeOp => Tab.ClosePane st

/-- Apply a sequence of Split/Close operations. -/
def applyTreeOps (cfg : Config) (st : TabState) (ops : List TreeOp) : TabState :=
  ops.foldl (applyTreeOp cfg) st

/-- Whether the tree consists of a single Leaf carrying the mark, so that
closing the focused pane empties the tree. -/
def isSoleFocusedLeaf (st : TabState) : Bool :=
  match st.rootPane with
  | some (.leaf _ _ true) => true
  | _ => false

/-- Every ratio stored in the subtree lies within the configured bounds. -/
def Pane.ratiosOK (cfg : Config) : Pane → Bool
  | .leaf _ _ _ => true
  | .split _ r f s =>
      decide (cfg.ratioMin ≤ r) && decide (r ≤ cfg.ratioMax) &&
        f.ratiosOK cfg && s.ratiosOK cfg

/-- Number of children of a node. -/
def Pane.numChildren : Pane → Nat
  | .leaf _ _ _ => 0
  | .split _ _ _ _ => 2

/-- Whether a node is a Split. -/
def Pane.isSplitNode : Pane → Bool
  | .leaf _ _ _ => false
  | .split _ _ _ _ => true

/-- All subtrees of a pane, itself included. -/
def Pane.subPanes : Pane → List Pane
  | .leaf pr c b => [.leaf pr c b]
  | .split a r f s => .split a r f s :: (f.subPanes ++ s.subPanes)

/-- Every Split node of the subtree has exactly two children. -/
def Pane.splitsBinary (p : Pane) : Prop :=
  ∀ q ∈ p.subPanes, q.isSplitNode = true → q.numChildren = 2

/-- The structural invariant of the Tab's tree: every Split has exactly two
children and every stored ratio lies within the configured bounds. -/
def treeInvariant (cfg : Config) (st : TabState) : Prop :=
  ∀ p, st.rootPane = some p → p.ratiosOK cfg = true ∧ p.splitsBinary

/-- The last-focused mark is held by at most one Leaf. -/
def focusUnique (st : TabState) : Prop :=
  ∀ p, st.rootPane = some p → p.focusCount ≤ 1

/-- List of the ratios stored in the tree, in traversal order. -/
def Pane.ratioList : Pane → List ℚ
  | .leaf _ _ _ => []
  | .split _ r f s => r :: (f.ratioList ++ s.ratioList)

/-- List of the content handles of the leaves, in traversal order. -/
def Pane.leafControls : Pane → List Nat
  | .leaf _ c _ => [c]
  | .split _ _ f s => f.leafControls ++ s.leafControls

/-- A sample configuration: minimum sizes 10, separator 1, ratio bounds
one quarter to three quarters, increment one twentieth. -/
def cfg0 : Config :=
  { minWidth := 10, minHeight := 10, sep := 1
    ratioMin := (1 : ℚ)/4, ratioMax := (3 : ℚ)/4, inc := (1 : ℚ)/20 }

/-- A sample Tab state whose single leaf carries no last-focused mark. -/
def stNoFocus : TabState :=
  { rootPane := some (.leaf 0 7 false)
    rootSize := ⟨100, 100⟩
    focused := false
    lastIconPath := ""
    closedCount := 0 }

/-- A sample Tab state: a single focused leaf in a 15 by 15 viewport, too
small to host any split under cfg0. -/
def stSmall : TabState :=
  { rootPane := some (.leaf 0 1 true)
    rootSize := ⟨15, 15⟩
    focused := false
    lastIconPath := ""
    closedCount := 0 }

/-- The delivery invariant of the closed notification: at most one
delivery so far, and once delivered the tree is empty. -/
def closedInv (st : TabState) : Prop :=
  st.closedCount ≤ 1 ∧ (st.closedCount = 1 → st.rootPane = none)

theorem Pane.splitsBinary_all : ∀ p : Pane, p.splitsBinary := by
  intro p
  induction p with
  | leaf pr c b =>
      intro q hq hs
      simp [Pane.subPanes] at hq
      subst hq
      simp [Pane.isSplitNode] at hs
  | split a r f s ihf ihs =>
      intro q hq hs
      simp [Pane.subPanes] at hq
      rcases hq with hq | hq | hq
      · subst hq; rfl
      · exact ihf q hq hs
      · exact ihs q hq hs

theorem Pane.closeFocused_of_hasFocus_false :
    ∀ p : Pane, p.hasFocus = false → p.closeFocused = .notFound := by
  intro p
  induction p with
  | leaf pr c b => cases b <;> simp [Pane.hasFocus, Pane.closeFocused]
  | split a r f s ihf ihs =>
      intro h
      simp [Pane.hasFocus] at h
      simp [Pane.closeFocused, ihf h.1, ihs h.2]

theorem Pane.splitFocused_isSome (ax : SplitAxis) (profile control : Nat) :
    ∀ p : Pane, (p.splitFocused ax profile control).isSome = p.hasFocus := by
  intro p
  induction p with
  | leaf pr c b => cases b <;> simp [Pane.splitFocused, Pane.hasFocus]
  | split a r f s ihf ihs =>
      cases hf : f.splitFocused ax profile control with
      | some fq =>
          rw [hf] at ihf
          simp [Pane.splitFocused, Pane.hasFocus, hf, ← ihf]
      | none =>
          rw [hf] at ihf
          cases hs : s.splitFocused ax profile control with
          | some sq =>
              rw [hs] at ihs
              simp [Pane.splitFocused, Pane.hasFocus, hf, hs, ← ihf, ← ihs]
          | none =>
              rw [hs] at ihs
              simp [Pane.splitFocused, Pane.hasFocus, hf, hs, ← ihf, ← ihs]

theorem Pane.closeFocused_split_ne_becameEmpty (a : SplitAxis) (r : ℚ) (f s : Pane) :
    (Pane.split a r f s).closeFocused ≠ .becameEmpty := by
  simp only [Pane.closeFocused]
  cases f.closeFocused <;> cases s.closeFocused <;> simp

theorem Pane.closeFocused_splitFocused (ax : SplitAxis) (profile control : Nat) :
    ∀ p q : Pane, p.focusCount ≤ 1 → p.splitFocused ax profile control = some q →
      q.closeFocused = .replaced p := by
  intro p
  induction p with
  | leaf pr c b =>
      intro q hc hq
      cases b with
      | false => simp [Pane.splitFocused] at hq
      | true =>
          simp [Pane.splitFocused] at hq
          subst hq
          simp [Pane.closeFocused, Pane.ensureFocus, Pane.hasFocus, Pane.focusFirstLeaf]
  | split a r f s ihf ihs =>
      intro q hc hq
      have hcf : f.focusCount ≤ 1 := by
        simp [Pane.focusCount] at hc; omega
      have hcs : s.focusCount ≤ 1 := by
        simp [Pane.focusCount] at hc; omega
      cases hf : f.splitFocused ax profile control with
      | some fq =>
          simp only [Pane.splitFocused, hf] at hq
          simp at hq
          subst hq
          simp [Pane.closeFocused, ihf fq hcf hf]
      | none =>
          simp only [Pane.splitFocused, hf] at hq
          cases hs : s.splitFocused ax profile control with
          | none => simp [hs] at hq
          | some sq =>
              simp [hs] at hq
              subst hq
              have hffalse : f.hasFocus = false := by
                have hiso := Pane.splitFocused_isSome ax profile control f
                rw [hf] at hiso
                simpa using hiso.symm
              simp [Pane.closeFocused, Pane.closeFocused_of_hasFocus_false f hffalse,
                ihs sq hcs hs]

theorem Tab.AddSplit_ok_shape (cfg : Config) (ax : SplitAxis) (profile control : Nat)
    (st s2 : TabState) (h : Tab.AddSplit cfg ax profile control st = .ok s2) :
    ∃ p q, st.rootPane = some p ∧ p.splitFocused ax profile control = some q ∧
      s2 = { st with rootPane := some q } := by
  by_cases hcs : canSplitAxis cfg ax st
  · cases hr : st.rootPane with
    | none => simp [Tab.AddSplit, hcs, hr] at h
    | some p =>
        cases hq : p.splitFocused ax profile control with
        | none => simp [Tab.AddSplit, hcs, hr, hq] at h
        | some q =>
            simp [Tab.AddSplit, hcs, hr, hq] at h
            exact ⟨p, q, rfl, hq, h.symm⟩
  · simp [Tab.AddSplit, hcs] at h

theorem Tab.AddSplit_closedCount (cfg : Config) (ax : SplitAxis) (profile control : Nat)
    (st : TabState) :
    (Tab.trySplit cfg ax profile control st).closedCount = st.closedCount := by
  unfold Tab.trySplit
  cases h : Tab.AddSplit cfg ax profile control st with
  | error e => rfl
  | ok s2 =>
      obtain ⟨p, q, hp, hq, hs2⟩ := Tab.AddSplit_ok_shape cfg ax profile control st s2 h
      rw [hs2]

theorem applyOp_closedCount (cfg : Config) (st : TabState) (op : Op) :
    (applyOp cfg st op).closedCount = st.closedCount ∨
      ((applyOp cfg st op).closedCount = st.closedCount + 1 ∧
        (applyOp cfg st op).rootPane = none) := by
  cases op with
  | splitV pr c => exact Or.inl (Tab.AddSplit_closedCount cfg .vertical pr c st)
  | splitH pr c => exact Or.inl (Tab.AddSplit_closedCount cfg .horizontal pr c st)
  | closeOp =>
      cases hr : st.rootPane with
      | none => left; simp [applyOp, Tab.ClosePane, hr]
      | some p =>
          cases hc : p.closeFocused with
          | notFound => left; simp [applyOp, Tab.ClosePane, hr, hc]
          | becameEmpty =>
              right
              constructor <;> simp [applyOp, Tab.ClosePane, hr, hc]
          | replaced q => left; simp [applyOp, Tab.ClosePane, hr, hc]
  | resizeSep d =>
      left
      cases hr : st.rootPane with
      | none => simp [applyOp, Tab.ResizePane, hr]
      | some p =>
          cases hq : p.resizeFocused cfg d with
          | none => simp [applyOp, Tab.ResizePane, hr, hq]
          | some q => simp [applyOp, Tab.ResizePane, hr, hq]
  | navigate d =>
      left
      cases hr : st.rootPane with
      | none => simp [applyOp, Tab.NavigateFocus, hr]
      | some p =>
          cases hfr : p.focusedRect cfg (Tab.rootRect st) with
          | none => simp [applyOp, Tab.NavigateFocus, hr, hfr]
          | some fr =>
              cases hb : pickBest d fr
                  ((p.leafRects cfg (Tab.rootRect st)).filter
                    fun e => !e.2.1 && eligibleB d fr e.2.2) with
              | none => simp [applyOp, Tab.NavigateFocus, hr, hfr, hb]
              | some best => simp [applyOp, Tab.NavigateFocus, hr, hfr, hb]
  | resizeWin sz => exact Or.inl rfl
  | setFocus b =>
      simp only [applyOp, Tab.SetFocused]
      cases b <;> exact Or.inl rfl
  | icon path =>
      simp only [applyOp, Tab.UpdateIcon]
      by_cases h : path = st.lastIconPath <;> simp [h]

theorem applyOp_rootNone (cfg : Config) (st : TabState) (op : Op) (h : st.rootPane = none) :
    (applyOp cfg st op).rootPane = none ∧ (applyOp cfg st op).closedCount = st.closedCount := by
  cases op with
  | splitV pr c =>
      simp [applyOp, Tab.trySplit, Tab.AddSplit, Tab.canSplitAxis, h]
  | splitH pr c =>
      simp [applyOp, Tab.trySplit, Tab.AddSplit, Tab.canSplitAxis, h]
  | closeOp => simp [applyOp, Tab.ClosePane, h]
  | resizeSep d => simp [applyOp, Tab.ResizePane, h]
  | navigate d => simp [applyOp, Tab.NavigateFocus, h]
  | resizeWin sz => simp [applyOp, Tab.ResizeContent, h]
  | setFocus b => cases b <;> simp [applyOp, Tab.SetFocused, h]
  | icon path =>
      by_cases hp : path = st.lastIconPath <;> simp [applyOp, Tab.UpdateIcon, hp, h]

theorem closedInv_applyOp (cfg : Config) (st : TabState) (op : Op) (h : closedInv st) :
    closedInv (applyOp cfg st op) := by
  rcases h with ⟨h1, h2⟩
  rcases applyOp_closedCount cfg st op with hc | ⟨hc, hn⟩
  · refine ⟨by omega, ?_⟩
    intro he
    have hone : st.closedCount = 1 := by omega
    exact (applyOp_rootNone cfg st op (h2 hone)).1
  · refine ⟨?_, fun _ => hn⟩
    by_cases h0 : st.closedCount = 1
    · have := (applyOp_rootNone cfg st op (h2 h0)).2
      omega
    · omega

theorem closedInv_applyOps (cfg : Config) :
    ∀ (ops : List Op) (st : TabState), closedInv st → closedInv (applyOps cfg st ops) := by
  intro ops
  induction ops with
  | nil => intro st h; exact h
  | cons op rest ih =>
      intro st h
      exact ih (applyOp cfg st op) (closedInv_applyOp cfg st op h)

theorem ClosePane_closedCount_eq (st : TabState) :
    (Tab.ClosePane st).closedCount =
      st.closedCount + (if isSoleFocusedLeaf st then 1 else 0) := by
  unfold Tab.ClosePane isSoleFocusedLeaf
  cases hr : st.rootPane with
  | none => simp
  | some p =>
      cases p with
      | leaf pr c b => cases b <;> simp [Pane.closeFocused]
      | split a r f s =>
          cases hcf : (Pane.split a r f s).closeFocused with
          | becameEmpty => exact absurd hcf (Pane.closeFocused_split_ne_becameEmpty a r f s)
          | notFound => simp [hcf]
          | replaced q => simp [hcf]

theorem ClosePane_empties_of_sole (st : TabState) (h : isSoleFocusedLeaf st = true) :
    (Tab.ClosePane st).rootPane = none := by
  unfold isSoleFocusedLeaf at h
  unfold Tab.ClosePane
  cases hr : st.rootPane with
  | none => rw [hr] at h; simp at h
  | some p =>
      rw [hr] at h
      cases p with
      | leaf pr c b =>
          cases b with
          | false => simp at h
          | true => simp [Pane.closeFocused]
      | split a r f s => simp at h

theorem Pane.ratiosOK_focusFirstLeaf (cfg : Config) :
    ∀ p : Pane, (p.focusFirstLeaf).ratiosOK cfg = p.ratiosOK cfg := by
  intro p
  induction p with
  | leaf pr c b => simp [Pane.focusFirstLeaf, Pane.ratiosOK]
  | split a r f s ihf ihs => simp [Pane.focusFirstLeaf, Pane.ratiosOK, ihf]

theorem Pane.ratiosOK_ensureFocus (cfg : Config) (p : Pane) :
    (p.ensureFocus).ratiosOK cfg = p.ratiosOK cfg := by
  unfold Pane.ensureFocus
  by_cases h : p.hasFocus = true <;> simp [h, Pane.ratiosOK_focusFirstLeaf]

theorem Pane.ratiosOK_splitFocused (cfg : Config) (ax : SplitAxis) (profile control : Nat)
    (hmin : cfg.ratioMin ≤ (1 : ℚ)/2) (hmax : (1 : ℚ)/2 ≤ cfg.ratioMax) :
    ∀ p q : Pane, p.ratiosOK cfg = true → p.splitFocused ax profile control = some q →
      q.ratiosOK cfg = true := by
  intro p
  induction p with
  | leaf pr c b =>
      intro q hok hq
      cases b with
      | false => simp [Pane.splitFocused] at hq
      | true =>
          simp [Pane.splitFocused] at hq
          subst hq
          simp [Pane.ratiosOK]
          exact ⟨by linarith, by linarith⟩
  | split a r f s ihf ihs =>
      intro q hok hq
      simp [Pane.ratiosOK] at hok
      obtain ⟨⟨⟨hr1, hr2⟩, hfok⟩, hsok⟩ := hok
      cases hf : f.splitFocused ax profile control with
      | some fq =>
          simp [Pane.splitFocused, hf] at hq
          subst hq
          simp [Pane.ratiosOK, hr1, hr2, hsok, ihf fq hfok hf]
      | none =>
          cases hs : s.splitFocused ax profile control with
          | none => simp [Pane.splitFocused, hf, hs] at hq
          | some sq =>
              simp [Pane.splitFocused, hf, hs] at hq
              subst hq
              simp [Pane.ratiosOK, hr1, hr2, hfok, ihs sq hsok hs]

theorem Pane.ratiosOK_closeFocused (cfg : Config) :
    ∀ p q : Pane, p.ratiosOK cfg = true → p.closeFocused = .replaced q →
      q.ratiosOK cfg = true := by
  intro p
  induction p with
  | leaf pr c b =>
      intro q hok hq
      cases b <;> simp [Pane.closeFocused] at hq
  | split a r f s ihf ihs =>
      intro q hok hq
      simp [Pane.ratiosOK] at hok
      obtain ⟨⟨⟨hr1, hr2⟩, hfok⟩, hsok⟩ := hok
      cases hcf : f.closeFocused with
      | becameEmpty =>
          simp [Pane.closeFocused, hcf] at hq
          subst hq
          rw [Pane.ratiosOK_ensureFocus]
          exact hsok
      | replaced fq =>
          simp [Pane.closeFocused, hcf] at hq
          subst hq
          simp [Pane.ratiosOK, hr1, hr2, hsok, ihf fq hfok hcf]
      | notFound =>
          cases hcs : s.closeFocused with
          | becameEmpty =>
              simp [Pane.closeFocused, hcf, hcs] at hq
              subst hq
              rw [Pane.ratiosOK_ensureFocus]
              exact hfok
          | replaced sq =>
              simp [Pane.closeFocused, hcf, hcs] at hq
              subst hq
              simp [Pane.ratiosOK, hr1, hr2, hfok, ihs sq hsok hcs]
          | notFound => simp [Pane.closeFocused, hcf, hcs] at hq

theorem ratiosOK_applyTreeOp (cfg : Config) (st : TabState) (op : TreeOp)
    (hmin : cfg.ratioMin ≤ (1 : ℚ)/2) (hmax : (1 : ℚ)/2 ≤ cfg.ratioMax)
    (h : ∀ p, st.rootPane = some p → p.ratiosOK cfg = true) :
    ∀ p, (applyTreeOp cfg st op).rootPane = some p → p.ratiosOK cfg = true := by
  cases op with
  | splitV pr c =>
      intro p hp
      simp only [applyTreeOp, Tab.trySplit] at hp
      cases hsr : Tab.AddSplit cfg .vertical pr c st with
      | error e => rw [hsr] at hp; exact h p hp
      | ok s2 =>
          rw [hsr] at hp
          obtain ⟨p0, q, hp0, hq, hs2⟩ := Tab.AddSplit_ok_shape cfg .vertical pr c st s2 hsr
          rw [hs2] at hp
          simp at hp
          subst hp
          exact Pane.ratiosOK_splitFocused cfg .vertical pr c hmin hmax p0 q (h p0 hp0) hq
  | splitH pr c =>
      intro p hp
      simp only [applyTreeOp, Tab.trySplit] at hp
      cases hsr : Tab.AddSplit cfg .horizontal pr c st with
      | error e => rw [hsr] at hp; exact h p hp
      | ok s2 =>
          rw [hsr] at hp
          obtain ⟨p0, q, hp0, hq, hs2⟩ := Tab.AddSplit_ok_shape cfg .horizontal pr c st s2 hsr
          rw [hs2] at hp
          simp at hp
          subst hp
          exact Pane.ratiosOK_splitFocused cfg .horizontal pr c hmin hmax p0 q (h p0 hp0) hq
  | closeOp =>
      intro p hp
      cases hr : st.rootPane with
      | none => simp [applyTreeOp, Tab.ClosePane, hr] at hp
      | some p0 =>
          cases hc : p0.closeFocused with
          | notFound =>
              simp [applyTreeOp, Tab.ClosePane, hr, hc] at hp
              exact h p (by rw [hr, hp])
          | becameEmpty => simp [applyTreeOp, Tab.ClosePane, hr, hc] at hp
          | replaced q =>
              simp [applyTreeOp, Tab.ClosePane, hr, hc] at hp
              subst hp
              exact Pane.ratiosOK_closeFocused cfg p0 q (h p0 hr) hc

theorem ratiosOK_applyTreeOps (cfg : Config)
    (hmin : cfg.ratioMin ≤ (1 : ℚ)/2) (hmax : (1 : ℚ)/2 ≤ cfg.ratioMax) :
    ∀ (ops : List TreeOp) (st : TabState),
      (∀ p, st.rootPane = some p → p.ratiosOK cfg = true) →
      ∀ p, (applyTreeOps cfg st ops).rootPane = some p → p.ratiosOK cfg = true := by
  intro ops
  induction ops with
  | nil => intro st h; exact h
  | cons op rest ih =>
      intro st h
      exact ih (applyTreeOp cfg st op) (ratiosOK_applyTreeOp cfg st op hmin hmax h)

theorem Pane.resizeFocused_isSome (cfg : Config) (d : Direction) :
    ∀ p : Pane, (p.resizeFocused cfg d).isSome = p.hasMatchingAncestor d := by
  intro p
  induction p with
  | leaf pr c b => simp [Pane.resizeFocused, Pane.hasMatchingAncestor]
  | split a r f s ihf ihs =>
      by_cases hf : f.hasFocus = true
      · cases hrf : f.resizeFocused cfg d with
        | some fq =>
            rw [hrf] at ihf
            simp [Pane.resizeFocused, Pane.hasMatchingAncestor, hf, hrf, ← ihf]
        | none =>
            rw [hrf] at ihf
            by_cases hcond : dirAxis d = a ∧ wantsFirst d = true
            · simp [Pane.resizeFocused, Pane.hasMatchingAncestor, hf, hrf, hcond, ← ihf]
            · simp [Pane.resizeFocused, Pane.hasMatchingAncestor, hf, hrf, hcond, ← ihf]
      · by_cases hs : s.hasFocus = true
        · cases hrs : s.resizeFocused cfg d with
          | some sq =>
              rw [hrs] at ihs
              simp [Pane.resizeFocused, Pane.hasMatchingAncestor, hf, hs, hrs, ← ihs]
          | none =>
              rw [hrs] at ihs
              by_cases hcond : dirAxis d = a ∧ wantsFirst d = false
              · simp [Pane.resizeFocused, Pane.hasMatchingAncestor, hf, hs, hrs, hcond, ← ihs]
              · simp [Pane.resizeFocused, Pane.hasMatchingAncestor, hf, hs, hrs, hcond, ← ihs]
        · simp [Pane.resizeFocused, Pane.hasMatchingAncestor, hf, hs]

/-- C1: over any lifetime of Tab operations starting from a fresh Tab, the
closed notification is delivered at most once; ClosePane delivers it
exactly when the focused pane is the last Leaf of the tree (closing a
non-last pane never delivers it); and in the delivering state the
structural change is already complete, the tree being empty. -/
theorem closed_notification_once :
    (∀ (cfg : Config) (profile control : Nat) (sz : Size) (ops : List Op),
      (applyOps cfg (Tab.init profile control sz) ops).closedCount ≤ 1) ∧
    (∀ st : TabState, (Tab.ClosePane st).closedCount =
      st.closedCount + (if isSoleFocusedLeaf st then 1 else 0)) ∧
    (∀ st : TabState, isSoleFocusedLeaf st = true → (Tab.ClosePane st).rootPane = none) := by
  refine ⟨?_, ClosePane_closedCount_eq, ClosePane_empties_of_sole⟩
  intro cfg profile control sz ops
  have hinit : closedInv (Tab.init profile control sz) := by
    constructor
    · simp [Tab.init]
    · intro h
      simp [Tab.init] at h
  exact (closedInv_applyOps cfg ops (Tab.init profile control sz) hinit).1

theorem closed_notification_once_witness :
    (Tab.ClosePane (Tab.init 0 1 ⟨100, 100⟩)).rootPane = none :=
  closed_notification_once.2.2 (Tab.init 0 1 ⟨100, 100⟩) rfl

/-- C2, counterexample to the claim as stated: in a Tab whose tree has no
last-focused mark, SetFocused(true) performs no focus transfer at all; it
does not fall back to the first Leaf in traversal order (control 7). -/
theorem set_focused_no_first_leaf_fallback :
    Tab.GetFocusedTerminalControl stNoFocus = none ∧
    Option.map Pane.firstControl stNoFocus.rootPane = some 7 ∧
    ¬ (Tab.SetFocused stNoFocus true).2 = Option.map Pane.firstControl stNoFocus.rootPane := by
  refine ⟨rfl, rfl, ?_⟩
  intro h
  have h2 : (none : Option Nat) = some 7 :=
    ((show (Tab.SetFocused stNoFocus true).2 = none from rfl).symm.trans h).trans
      (show Option.map Pane.firstControl stNoFocus.rootPane = some 7 from rfl)
  exact Option.noConfusion h2

/-- C2 amended: SetFocused(true) sets the tab-level focus flag and
transfers focus to the tracked last-focused control exactly when one
exists; with no tracked leaf no focus transfer occurs. -/
theorem set_focused_transfers_tracked (st : TabState) :
    (Tab.SetFocused st true).2 = Tab.GetFocusedTerminalControl st ∧
    (Tab.SetFocused st true).1.focused = true := by
  simp [Tab.SetFocused]

/-- C3: when CanSplit is false for the requested axis, the split fails
with InvalidOperation and the observable Tab state is exactly the
pre-call state: no partial split, no focus change. -/
theorem split_invalid_operation (cfg : Config) (ax : SplitAxis) (profile control : Nat)
    (st : TabState) (h : Tab.canSplitAxis cfg ax st = false) :
    Tab.AddSplit cfg ax profile control st = .error .invalidOperation ∧
    Tab.trySplit cfg ax profile control st = st := by
  constructor
  · simp [Tab.AddSplit, h]
  · simp [Tab.trySplit, Tab.AddSplit, h]

theorem split_invalid_operation_witness :
    Tab.AddSplit cfg0 .vertical 5 6 stSmall = .error .invalidOperation ∧
    Tab.trySplit cfg0 .vertical 5 6 stSmall = stSmall :=
  split_invalid_operation cfg0 .vertical 5 6 stSmall
    (by
      simp [Tab.canSplitAxis, Tab.rootRect, stSmall, Pane.focusedRect, cfg0]
      norm_num)

/-- C4: after any finite sequence of Split and Close operations starting
from a single-Leaf tree, every Split node of the resulting tree has
exactly two children and every ratio lies within the configured bounds. -/
theorem split_close_invariant (cfg : Config) (profile control : Nat) (sz : Size)
    (ops : List TreeOp)
    (hmin : cfg.ratioMin ≤ (1 : ℚ)/2) (hmax : (1 : ℚ)/2 ≤ cfg.ratioMax) :
    treeInvariant cfg (applyTreeOps cfg (Tab.init profile control sz) ops) := by
  intro p hp
  refine ⟨?_, Pane.splitsBinary_all p⟩
  refine ratiosOK_applyTreeOps cfg hmin hmax ops (Tab.init profile control sz) ?_ p hp
  intro q hq
  have hq2 : Pane.leaf profile control true = q := by
    have hrp : (Tab.init profile control sz).rootPane = some (Pane.leaf profile control true) :=
      rfl
    rw [hrp] at hq
    exact Option.some.inj hq
  rw [← hq2]
  simp [Pane.ratiosOK]

theorem split_close_invariant_witness :
    treeInvariant cfg0 (applyTreeOps cfg0 (Tab.init 0 1 ⟨100, 100⟩)
      [TreeOp.splitV 2 3, TreeOp.closeOp]) :=
  split_close_invariant cfg0 0 1 ⟨100, 100⟩ [TreeOp.splitV 2 3, TreeOp.closeOp]
    (by norm_num [cfg0]) (by norm_num [cfg0])

/-- C5: on any Tab whose tree carries at most one last-focused mark, a
successful Split followed immediately by Close (which closes the newly
created, now focused leaf) restores the Tab state exactly: same leaves,
same ratios on all splits, same focus mark. -/
theorem split_close_roundtrip (cfg : Config) (ax : SplitAxis) (profile control : Nat)
    (st s2 : TabState) (hf : focusUnique st)
    (h : Tab.AddSplit cfg ax profile control st = .ok s2) :
    Tab.ClosePane s2 = st := by
  obtain ⟨p, q, hp, hq, hs2⟩ := Tab.AddSplit_ok_shape cfg ax profile control st s2 h
  have hclose := Pane.closeFocused_splitFocused ax profile control p q (hf p hp) hq
  subst hs2
  cases st with
  | mk rp sz fc ip cc =>
      simp at hp
      simp [Tab.ClosePane, hclose, hp]

theorem split_close_roundtrip_witness :
    Tab.ClosePane
      { rootPane := some (.split .vertical ((1 : ℚ)/2) (.leaf 0 1 false) (.leaf 2 3 true))
        rootSize := ⟨100, 100⟩
        focused := false
        lastIconPath := ""
        closedCount := 0 } = Tab.init 0 1 ⟨100, 100⟩ :=
  split_close_roundtrip cfg0 .vertical 2 3 (Tab.init 0 1 ⟨100, 100⟩) _
    (by
      intro p hp
      have hp2 : Pane.leaf 0 1 true = p := by
        have hrp : (Tab.init 0 1 ⟨100, 100⟩).rootPane = some (Pane.leaf 0 1 true) := rfl
        rw [hrp] at hp
        exact Option.some.inj hp
      rw [← hp2]
      decide)
    (by
      have hcs : Tab.canSplitAxis cfg0 .vertical (Tab.init 0 1 ⟨100, 100⟩) = true := by
        simp [Tab.canSplitAxis, Tab.rootRect, Tab.init, Pane.focusedRect, cfg0]
        norm_num
      simp only [Tab.init] at hcs
      simp [Tab.AddSplit, hcs, Tab.init, Pane.splitFocused])

/-- C6: a separator resize with no ancestor Split matching the direction
leaves the state unchanged, and a navigation request with no eligible
candidate returns no result and mutates nothing; both are total
functions returning defined outcomes, not failures. -/
theorem geometric_noops :
    (∀ (cfg : Config) (d : Direction) (st : TabState),
      Tab.noMatchingAncestor d st = true → Tab.ResizePane cfg d st = st) ∧
    (∀ (cfg : Config) (d : Direction) (st : TabState),
      Tab.eligibleCands cfg d st = [] → Tab.NavigateFocus cfg d st = (st, none)) := by
  constructor
  · intro cfg d st h
    cases hr : st.rootPane with
    | none => simp [Tab.ResizePane, hr]
    | some p =>
        simp [Tab.noMatchingAncestor, hr] at h
        have hiso := Pane.resizeFocused_isSome cfg d p
        rw [h] at hiso
        cases hq : p.resizeFocused cfg d with
        | some q => rw [hq] at hiso; simp at hiso
        | none => simp [Tab.ResizePane, hr, hq]
  · intro cfg d st h
    cases hr : st.rootPane with
    | none => simp [Tab.NavigateFocus, hr]
    | some p =>
        simp only [Tab.eligibleCands, hr] at h
        cases hfr : p.focusedRect cfg (Tab.rootRect st) with
        | none => simp [Tab.NavigateFocus, hr, hfr]
        | some fr =>
            simp only [hfr] at h
            simp [Tab.NavigateFocus, hr, hfr, h, pickBest]

theorem geometric_noops_witness :
    Tab.ResizePane cfg0 Direction.left (Tab.init 0 1 ⟨100, 100⟩) =
      Tab.init 0 1 ⟨100, 100⟩ ∧
    Tab.NavigateFocus cfg0 Direction.left (Tab.init 0 1 ⟨100, 100⟩) =
      (Tab.init 0 1 ⟨100, 100⟩, none) :=
  ⟨geometric_noops.1 cfg0 .left (Tab.init 0 1 ⟨100, 100⟩) rfl,
   geometric_noops.2 cfg0 .left (Tab.init 0 1 ⟨100, 100⟩) rfl⟩

/-- C7: ResizeContent only swaps the stored viewport size from which the
per-node rectangles are derived; the tree (hence its shape), every stored
ratio and the last-focused mark are unchanged. -/
theorem resize_content_frame (st : TabState) (sz : Size) :
    (Tab.ResizeContent st sz).rootPane = st.rootPane ∧
    (Tab.ResizeContent st sz).rootSize = sz ∧
    Option.map Pane.ratioList (Tab.ResizeContent st sz).rootPane
      = Option.map Pane.ratioList st.rootPane ∧
    Option.map Pane.leafControls (Tab.ResizeContent st sz).rootPane
      = Option.map Pane.leafControls st.rootPane ∧
    Tab.GetFocusedTerminalControl (Tab.ResizeContent st sz)
      = Tab.GetFocusedTerminalControl st :=
  ⟨rfl, rfl, rfl, rfl, rfl⟩

/-- C8: with no control marked last-focused anywhere in the tree,
GetFocusedTitle returns the empty string rather than failing. -/
theorem focused_title_empty (titleOf : Nat → String) (st : TabState)
    (h : Tab.GetFocusedTerminalControl st = none) :
    Tab.GetFocusedTitle titleOf st = "" := by
  unfold Tab.GetFocusedTitle
  rw [h]

theorem focused_title_empty_witness :
    Tab.GetFocusedTitle (fun _ => "title") stNoFocus = "" :=
  focused_title_empty (fun _ => "title") stNoFocus rfl

/-- C9: Scroll dereferences the focused control with no null guard: when
no control is marked last-focused the null dereference is reached, while
GetFocusedTitle guards the very same lookup and returns the empty
string. -/
theorem scroll_null_unguarded (st : TabState) (delta : Int)
    (h : Tab.GetFocusedTerminalControl st = none) :
    Tab.Scroll st delta = .nullDeref ∧
    (∀ titleOf : Nat → String, Tab.GetFocusedTitle titleOf st = "") := by
  constructor
  · unfold Tab.Scroll
    rw [h]
  · intro titleOf
    unfold Tab.GetFocusedTitle
    rw [h]

theorem scroll_null_unguarded_witness :
    Tab.Scroll stNoFocus 3 = .nullDeref ∧
    (∀ titleOf : Nat → String, Tab.GetFocusedTitle titleOf stNoFocus = "") :=
  scroll_null_unguarded stNoFocus 3 rfl

/-- C10: calling UpdateIcon again with the path of the immediately
preceding call is a complete no-op: the stored path is unchanged and no
icon reload is dispatched. -/
theorem update_icon_idempotent (st : TabState) (path : String) :
    Tab.UpdateIcon (Tab.UpdateIcon st path).1 path = ((Tab.UpdateIcon st path).1, false) := by
  unfold Tab.UpdateIcon
  by_cases h : path = st.lastIconPath
  · simp [h]
  · simp [h]
